import Mathlib

/-!
Verification of the self-play league orchestration core of DI-engine.

Shallow embedding of:
* `ding/framework/middleware/league_coordinator.py` — the `LeagueCoordinator`
  event handlers (`on_actor_greeting`, `on_learner_player_meta`, `on_actor_job`),
  its job generator `_create_job_iter`, and `_distribute_job`, and
* `ding/entry/main_league.py` — the worker-role assignment loop in `main`.

The `BaseLeague` class (`ding.league.v2`) is not part of the sources at hand:
its operations (`get_job_info`, `update_payoff`, `update_active_player`,
`create_historical_player`) are modelled from the specification, each marked
`Modelled from the spec:` in its doc comment.

Python machine-level behaviour is made explicit: the `list[i % n]` access with
`n = 0` raises `ZeroDivisionError`, modelled by returning `none`; `task.emit`
is modelled by collecting `(topic, payload)` pairs.
-/

namespace League2

/-- Outcome signal carried by a completed job (spec §4.2: win/loss/draw). -/
inductive Outcome
  | win
  | loss
  | draw
deriving DecidableEq, Repr

/-- A matchmaking job (spec §3): ordered participant list (head is the
primary/learning side), the actor it is addressed to (empty until dispatch),
and the reported outcome (`none` until completed). -/
structure Job where
  players : List String
  actor_id : String
  result : Option Outcome
deriving DecidableEq, Repr

/-- A player: stable identity and a checkpoint reference (spec §3). -/
structure Player where
  player_id : String
  checkpoint : String
deriving DecidableEq, Repr

/-- A learner snapshot descriptor (spec §3, `PlayerMeta`): source active-player
id, checkpoint reference, training-progress counter. -/
structure PlayerMeta where
  player_id : String
  checkpoint : String
  train_iter : Nat
deriving DecidableEq, Repr

/-- Running statistics for one ordered player pair (spec §3, `PayoffTable`). -/
structure PayoffEntry where
  wins : Nat
  losses : Nat
  draws : Nat
deriving DecidableEq, Repr

/-- Modelled from the spec: the payoff table is a "mapping from ordered
player-id pair → running statistics"; encoded as an association list where the
first binding of a key is its current entry. -/
abbrev PayoffTable := List ((String × String) × PayoffEntry)

/-- Current statistics of a pair; unseen pairs start at the neutral prior
(zero counts, spec §4.2). -/
def entryFor : PayoffTable → (String × String) → PayoffEntry
  | [], _ => ⟨0, 0, 0⟩
  | (k, e) :: rest, key => if k = key then e else entryFor rest key

/-- Increment the statistic selected by the outcome. -/
def bump (e : PayoffEntry) : Outcome → PayoffEntry
  | Outcome.win => { e with wins := e.wins + 1 }
  | Outcome.loss => { e with losses := e.losses + 1 }
  | Outcome.draw => { e with draws := e.draws + 1 }

/-- Modelled from the spec: `record_outcome` "updates the statistics for every
relevant pair"; here the ordered pair of the first two participants. -/
def recordOutcome (t : PayoffTable) (key : String × String) (o : Outcome) :
    PayoffTable :=
  (key, bump (entryFor t key) o) :: t

/-- The league aggregate (spec §3): active players, historical players, payoff. -/
structure League where
  active_players : List Player
  historical_players : List Player
  payoff : PayoffTable
deriving DecidableEq

/-- `BaseLeague.active_players_ids` — ids of the active players, in order. -/
def activePlayerIds (lg : League) : List String :=
  lg.active_players.map Player.player_id

/-- All player ids known to the registry (active and historical). -/
def allPlayerIds (lg : League) : List String :=
  activePlayerIds lg ++ lg.historical_players.map Player.player_id

/-- Modelled from the spec: the Matchmaker's opponent choice is a pluggable
policy; only the primary slot (head, the requested player id) is specified.
The opponent here is the first historical player if any, else the player
itself. -/
def getJobInfo (lg : League) (player_id : String) : Job :=
  { players :=
      [player_id,
       ((lg.historical_players.map Player.player_id).headD player_id)],
    actor_id := "",
    result := none }

/-- Modelled from the spec: `update_active_checkpoint` "refreshes an active
player's learned-parameter reference"; an unknown id is reported and dropped
(non-fatal), leaving the registry unchanged. -/
def updateActivePlayer (lg : League) (meta : PlayerMeta) : League :=
  { lg with
    active_players := lg.active_players.map fun p =>
      if p.player_id = meta.player_id then { p with checkpoint := meta.checkpoint }
      else p }

/-- Modelled from the spec: `promote_to_historical` "creates an immutable
historical player snapshot" frozen at the snapshot's checkpoint, never
mutating the source active player; an unknown active id is dropped. -/
def createHistoricalPlayer (lg : League) (meta : PlayerMeta) : League :=
  if (activePlayerIds lg).contains meta.player_id then
    { lg with
      historical_players := lg.historical_players ++
        [{ player_id := meta.player_id ++ "_H" ++ toString meta.train_iter,
           checkpoint := meta.checkpoint }] }
  else lg

/-- The ordered pair of the first two participants of a job, when present. -/
def pairKey (j : Job) : Option (String × String) :=
  match j.players with
  | a :: b :: _ => some (a, b)
  | _ => none

/-- Modelled from the spec: `apply_result` forwards a completed job to the
payoff table; a result referencing an unknown player id, or one without a
participant pair or outcome, is logged and dropped (league unchanged). -/
def updatePayoff (lg : League) (j : Job) : League :=
  match pairKey j, j.result with
  | some (a, b), some o =>
    if (allPlayerIds lg).contains a ∧ (allPlayerIds lg).contains b then
      { lg with payoff := recordOutcome lg.payoff (a, b) o }
    else lg
  | _, _ => lg

/-- The coordinator's mutable state: its league and the counter `i` of the
generator `_create_job_iter` (`LeagueCoordinator.__init__` stores the league
and creates the generator with `i = 0`; the generator body has not run yet). -/
structure Coordinator where
  league : League
  jobIterCounter : Nat
deriving DecidableEq

/-- `LeagueCoordinator.__init__`: total — performs no validation of the league. -/
def mkCoordinator (lg : League) : Coordinator :=
  { league := lg, jobIterCounter := 0 }

/-- One resumption of the generator `_create_job_iter` at counter `i`:
`player_num = len(active_players_ids)`; `active_players_ids[i % player_num]`
raises `ZeroDivisionError` when `player_num = 0` (modelled as `none`);
otherwise yields `get_job_info(player_id)` and advances the counter. -/
def jobIterNext (lg : League) (i : Nat) : Option (Job × Nat) :=
  let ids := activePlayerIds lg
  if h : ids.length = 0 then none
  else
    some (getJobInfo lg (ids.get ⟨i % ids.length, Nat.mod_lt i (Nat.pos_of_ne_zero h)⟩),
          i + 1)

/-- The topic string of `task.emit` in `_distribute_job`:
`"league_job_actor_{}".format(actor_id)`. -/
def actorTopic (actor_id : String) : String :=
  "league_job_actor_" ++ actor_id

/-- `LeagueCoordinator._distribute_job`: pull the next job from the iterator,
bind `job.actor_id = actor_id`, emit it on the actor's topic. Returns the new
coordinator state and the emitted `(topic, job)` messages, or `none` when the
generator raises. -/
def distributeJob (c : Coordinator) (actor_id : String) :
    Option (Coordinator × List (String × Job)) :=
  match jobIterNext c.league c.jobIterCounter with
  | none => none
  | some (job, i) =>
    some ({ c with jobIterCounter := i },
          [(actorTopic actor_id, { job with actor_id := actor_id })])

/-- `LeagueCoordinator.on_actor_greeting`. -/
def on_actor_greeting (c : Coordinator) (actor_id : String) :
    Option (Coordinator × List (String × Job)) :=
  distributeJob c actor_id

/-- `LeagueCoordinator.on_learner_player_meta`: `update_active_player` then
`create_historical_player`; emits nothing. -/
def on_learner_player_meta (c : Coordinator) (meta : PlayerMeta) :
    Coordinator × List (String × Job) :=
  ({ c with
     league := createHistoricalPlayer (updateActivePlayer c.league meta) meta },
   [])

/-- `LeagueCoordinator.on_actor_job`: read `job.actor_id`, apply the result to
the payoff, then redistribute a job to the same actor. -/
def on_actor_job (c : Coordinator) (job : Job) :
    Option (Coordinator × List (String × Job)) :=
  let actor_id := job.actor_id
  distributeJob { c with league := updatePayoff c.league job } actor_id

/-- `M` consecutive pulls from the job iterator starting at counter `i`
(truncated if the generator raises). -/
def pullJobs (lg : League) : Nat → Nat → List Job
  | 0, _ => []
  | m + 1, i =>
    match jobIterNext lg i with
    | none => []
    | some (j, i') => j :: pullJobs lg m i'

/-- The primary participant of a job: the first slot of its participant list. -/
def Job.primary (j : Job) : String :=
  j.players.headD ""

/-- The inbound events of the coordinator (spec §4.5 / §6). -/
inductive Event
  | greeting (actor_id : String)
  | jobResult (job : Job)
  | playerMeta (meta : PlayerMeta)
deriving DecidableEq

/-- Dispatch one inbound event to the coordinator's handler. -/
def stepEvent (c : Coordinator) : Event → Option (Coordinator × List (String × Job))
  | Event.greeting a => on_actor_greeting c a
  | Event.jobResult j => on_actor_job c j
  | Event.playerMeta m => some (on_learner_player_meta c m)

/-- Run the coordinator over a sequence of inbound events, collecting all
emitted messages; `none` if any handler raises. -/
def runTrace (c : Coordinator) : List Event → Option (Coordinator × List (String × Job))
  | [] => some (c, [])
  | e :: es =>
    (stepEvent c e).bind fun s =>
      (runTrace s.1 es).bind fun r => some (r.1, s.2 ++ r.2)

/-- Number of jobs dispatched to actor `a` among emitted messages. -/
def dispatchCount (a : String) (msgs : List (String × Job)) : Nat :=
  msgs.countP fun m => m.2.actor_id = a

/-- Number of greetings from actor `a` in an event trace. -/
def greetCount (a : String) (t : List Event) : Nat :=
  t.countP fun e =>
    match e with
    | Event.greeting b => b = a
    | _ => false

/-- Number of job results reported by actor `a` in an event trace. -/
def resultCount (a : String) (t : List Event) : Nat :=
  t.countP fun e =>
    match e with
    | Event.jobResult j => j.actor_id = a
    | _ => false

/-! ### Worker-role assignment (`ding/entry/main_league.py`) -/

/-- The role a node of the cluster ends up running. -/
inductive Assigned
  | coordinator
  | actor
  | learner (player_index : Nat)
deriving DecidableEq, Repr

/-- The flattened slot list of `cfg.task.workers`: the loop
`for worker, num in workers: for _ in range(num): i += 1` visits one slot per
unit of `num`, in order, with slot index `i`. -/
def slotKinds (workers : List (String × Nat)) : List String :=
  workers.flatMap fun w => List.replicate w.2 w.1

/-- The body of `main`'s worker loop as seen by one node: the node acts only on
the slot whose index equals its `node_id`. A `league_learner` slot is assigned
`active_players[node_id % n_players]` (raising `ZeroDivisionError` when there
are no active players); any unrecognized worker kind raises
`ValueError("Undefined worker type: ...")`. A node with no slot runs nothing. -/
def assignWorker (nActive : Nat) (workers : List (String × Nat)) (node_id : Nat) :
    Except String (Option Assigned) :=
  match (slotKinds workers)[node_id]? with
  | none => Except.ok none
  | some k =>
    if k = "league_coordinator" then Except.ok (some Assigned.coordinator)
    else if k = "league_actor" then Except.ok (some Assigned.actor)
    else if k = "league_learner" then
      if nActive = 0 then Except.error "ZeroDivisionError"
      else Except.ok (some (Assigned.learner (node_id % nActive)))
    else Except.error ("Undefined worker type: " ++ k)

/-- The node ids of the `league_learner` slots of a worker configuration. -/
def learnerNodes (workers : List (String × Nat)) : List Nat :=
  (List.range (slotKinds workers).length).filter
    fun i => (slotKinds workers)[i]? = some "league_learner"

/-! ### Concrete sample data (used by witnesses) -/

/-- A league with three active players, as in the spec's fairness example. -/
def lg3 : League :=
  { active_players := [⟨"p0", "c0"⟩, ⟨"p1", "c1"⟩, ⟨"p2", "c2"⟩],
    historical_players := [],
    payoff := [] }

/-- A league configured with zero active players. -/
def lgEmpty : League :=
  { active_players := [], historical_players := [], payoff := [] }

/-- A league with two active players `A`, `B` and one historical player. -/
def lgAB : League :=
  { active_players := [⟨"A", "ckptA"⟩, ⟨"B", "ckptB"⟩],
    historical_players := [⟨"H0", "ckptH"⟩],
    payoff := [] }

/-- A completed job between `A` and `B`, reported by actor `X`, won by `A`. -/
def jobAB : Job :=
  { players := ["A", "B"], actor_id := "X", result := some Outcome.win }

/-- A learner snapshot for active player `A` announcing a new checkpoint. -/
def metaA : PlayerMeta :=
  { player_id := "A", checkpoint := "ckptA2", train_iter := 7 }

/-- A learner snapshot naming a player id unknown to `lgAB`. -/
def metaZ : PlayerMeta :=
  { player_id := "Z", checkpoint := "ckptZ", train_iter := 5 }

/-- A job result referencing the unknown player id `Z`. -/
def jobZ : Job :=
  { players := ["A", "Z"], actor_id := "X", result := some Outcome.win }

/-- The coordinator over `lgAB` after one pull from the job iterator. -/
def coordAB1 : Coordinator :=
  { league := lgAB, jobIterCounter := 1 }

/-- The message list emitted by the first dispatch to actor `X` over `lgAB`. -/
def outAB : List (String × Job) :=
  [(actorTopic "X", { players := ["A", "H0"], actor_id := "X", result := none })]

/-- A worker configuration containing an unrecognized worker kind. -/
def cfgBad : List (String × Nat) :=
  [("league_coordinator", 1), ("spam", 1)]

/-- A worker configuration with one coordinator and three learner nodes. -/
def cfgLearners : List (String × Nat) :=
  [("league_coordinator", 1), ("league_learner", 3)]

/-! ### Helper lemmas -/

/-- Among `0, 1, …, M-1`, the residue `j < N` occurs `M / N` times, plus one
more when `j < M % N`. -/
lemma countP_range_mod (N : Nat) (hN : 0 < N) (j : Nat) (hj : j < N) :
    ∀ M, (List.range M).countP (fun i => decide (i % N = j)) =
      M / N + (if j < M % N then 1 else 0)
  | 0 => by simp
  | M + 1 => by
    rw [List.range_succ, List.countP_append, countP_range_mod N hN j hj M]
    have hr : M % N < N := Nat.mod_lt M hN
    have hdm : N * (M / N) + M % N = M := Nat.div_add_mod M N
    rcases eq_or_lt_of_le (Nat.succ_le_of_lt hr) with hN1 | hlt
    · have hM1 : M + 1 = N * (M / N + 1) := by
        rw [Nat.mul_add, Nat.mul_one]; omega
      have hdiv : (M + 1) / N = M / N + 1 := by
        rw [hM1, Nat.mul_div_cancel_left _ hN]
      have hmod : (M + 1) % N = 0 := by rw [hM1, Nat.mul_mod_right]
      rw [hdiv, hmod]
      simp only [List.countP_cons, List.countP_nil, decide_eq_true_eq]
      clear hM1 hdiv hmod
      split_ifs <;> omega
    · have hM1 : M + 1 = (M % N + 1) + N * (M / N) := by omega
      have hdiv : (M + 1) / N = M / N := by
        rw [hM1, Nat.add_mul_div_left _ _ hN, Nat.div_eq_of_lt hlt, Nat.zero_add]
      have hmod : (M + 1) % N = M % N + 1 := by
        rw [hM1, Nat.add_mul_mod_self_left, Nat.mod_eq_of_lt hlt]
      rw [hdiv, hmod]
      simp only [List.countP_cons, List.countP_nil, decide_eq_true_eq]
      clear hM1 hdiv hmod
      split_ifs <;> omega

/-- Ceiling division `⌈M/N⌉ = (M + N - 1) / N` exceeds floor division by one
exactly when `N` does not divide `M`. -/
lemma ceil_div_of_mod_pos (M N : Nat) (hN : 0 < N) (hr : M % N ≠ 0) :
    (M + N - 1) / N = M / N + 1 := by
  have hdm : N * (M / N) + M % N = M := Nat.div_add_mod M N
  have hlt : M % N < N := Nat.mod_lt M hN
  have hM1 : M + N - 1 = (M % N - 1) + N * (M / N + 1) := by
    rw [Nat.mul_add, Nat.mul_one]; omega
  rw [hM1, Nat.add_mul_div_left _ _ hN, Nat.div_eq_of_lt (by omega), Nat.zero_add]

/-- The primary participants of `M` consecutive pulls starting at counter `i`
are the active-player ids in cyclic order from index `i mod N`. -/
lemma pullJobs_map_primary (lg : League) (h : (activePlayerIds lg).length ≠ 0) :
    ∀ M i, (pullJobs lg M i).map Job.primary =
      (List.range M).map fun k =>
        (activePlayerIds lg).getD ((i + k) % (activePlayerIds lg).length) ""
  | 0, i => by simp [pullJobs]
  | M + 1, i => by
    have hpos : 0 < (activePlayerIds lg).length := Nat.pos_of_ne_zero h
    rw [pullJobs, jobIterNext, dif_neg h, List.range_succ_eq_map, List.map_cons,
      List.map_cons, List.map_map]
    refine congrArg₂ _ ?_ ?_
    · show Job.primary (getJobInfo lg _) = _
      rw [Nat.add_zero, List.getD_eq_getElem _ _ (Nat.mod_lt i hpos)]
      simp [Job.primary, getJobInfo]
    · rw [pullJobs_map_primary lg h M (i + 1)]
      refine List.map_congr_left fun k _ => ?_
      have hik : i + 1 + k = i + (k + 1) := by omega
      simp [Function.comp, Nat.succ_eq_add_one, hik]

/-- The count of residue class `j` among primary selections: transport
`countP_range_mod` through `pullJobs_map_primary` and the `Nodup` invariant. -/
lemma count_primary_pullJobs (lg : League) (M j : Nat)
    (hN : 0 < (activePlayerIds lg).length)
    (hnd : (activePlayerIds lg).Nodup)
    (hj : j < (activePlayerIds lg).length) :
    ((pullJobs lg M 0).map Job.primary).count
        ((activePlayerIds lg).get ⟨j, hj⟩) =
      M / (activePlayerIds lg).length +
        (if j < M % (activePlayerIds lg).length then 1 else 0) := by
  set ids := activePlayerIds lg with hids
  set N := ids.length with hNdef
  rw [pullJobs_map_primary lg (Nat.pos_iff_ne_zero.mp hN) M 0]
  rw [List.count_eq_countP, List.countP_map]
  rw [show ((fun x => x == ids.get ⟨j, hj⟩) ∘ fun k => ids.getD ((0 + k) % N) "") =
        fun k => decide (k % N = j) from ?_]
  · exact countP_range_mod N hN j hj M
  · funext k
    have hk : k % N < ids.length := Nat.mod_lt _ hN
    simp only [Function.comp_apply, Nat.zero_add]
    rw [List.getD_eq_getElem _ _ hk, List.get_eq_getElem]
    rcases eq_or_ne (k % N) j with he | hne
    · simp [he]
    · have hne2 : ids[k % N] ≠ ids[j] := by
        intro hcontra
        exact hne ((List.Nodup.getElem_inj_iff hnd).mp hcontra)
      simp [hne2, hne]

/-- C1: round-robin fairness of the job iterator. With `N ≥ 1` active players
(list unchanged across the calls, ids distinct by the registry invariant) and
`M` consecutive pulls starting from counter `0`, the primary participants are
the active ids in cyclic order starting from index `0`, and each active player
is primary either `⌊M/N⌋` or `⌈M/N⌉ = (M+N-1)/N` times. -/
theorem roundRobin_fairness (lg : League) (M : Nat)
    (hN : 0 < (activePlayerIds lg).length)
    (hnd : (activePlayerIds lg).Nodup) :
    ((pullJobs lg M 0).map Job.primary =
      (List.range M).map fun k =>
        (activePlayerIds lg).getD (k % (activePlayerIds lg).length) "")
    ∧ ∀ j, ∀ hj : j < (activePlayerIds lg).length,
        ((pullJobs lg M 0).map Job.primary).count
            ((activePlayerIds lg).get ⟨j, hj⟩) =
          M / (activePlayerIds lg).length
        ∨ ((pullJobs lg M 0).map Job.primary).count
            ((activePlayerIds lg).get ⟨j, hj⟩) =
          (M + (activePlayerIds lg).length - 1) / (activePlayerIds lg).length := by
  constructor
  · rw [pullJobs_map_primary lg (Nat.pos_iff_ne_zero.mp hN) M 0]
    simp only [Nat.zero_add]
  · intro j hj
    rw [count_primary_pullJobs lg M j hN hnd hj]
    by_cases hcase : j < M % (activePlayerIds lg).length
    · right
      rw [if_pos hcase, ceil_div_of_mod_pos M _ hN (by omega)]
    · left
      rw [if_neg hcase, Nat.add_zero]

/-- Witness for C1: three active players `p0,p1,p2` and six pulls give the
sequence `p0,p1,p2,p0,p1,p2`, each player twice. -/
theorem roundRobin_fairness_witness :
    (0 < (activePlayerIds lg3).length) ∧ (activePlayerIds lg3).Nodup ∧
      (((pullJobs lg3 6 0).map Job.primary =
        (List.range 6).map fun k =>
          (activePlayerIds lg3).getD (k % (activePlayerIds lg3).length) "")
      ∧ ∀ j, ∀ hj : j < (activePlayerIds lg3).length,
          ((pullJobs lg3 6 0).map Job.primary).count
              ((activePlayerIds lg3).get ⟨j, hj⟩) =
            6 / (activePlayerIds lg3).length
          ∨ ((pullJobs lg3 6 0).map Job.primary).count
              ((activePlayerIds lg3).get ⟨j, hj⟩) =
            (6 + (activePlayerIds lg3).length - 1) / (activePlayerIds lg3).length) :=
  ⟨by decide, by decide, roundRobin_fairness lg3 6 (by decide) (by decide)⟩

/-- C2 (refutation of fail-fast): constructing a coordinator over a league
with zero active players succeeds with no validation at all, and the very
first job request (the first actor greeting) is what fails, inside the job
generator, with the arithmetic-class error of `i % 0` — there is no
startup-time configuration error. -/
theorem zeroPlayers_fails_at_first_request :
    mkCoordinator lgEmpty = { league := lgEmpty, jobIterCounter := 0 }
    ∧ on_actor_greeting (mkCoordinator lgEmpty) "actor-0" = none :=
  ⟨rfl, rfl⟩

/-- C3: processing an actor job result first applies the result to the
league's payoff and then has exactly the effect of a fresh actor greeting for
the actor id carried by the completed job. -/
theorem actorJob_is_payoff_then_greeting (c : Coordinator) (job : Job) :
    on_actor_job c job =
      on_actor_greeting { c with league := updatePayoff c.league job }
        job.actor_id :=
  rfl

/-- A successful dispatch emits exactly one message, on the target actor's
topic, with the job's `actor_id` bound to the target. -/
lemma distributeJob_out (c c2 : Coordinator) (X : String)
    (out : List (String × Job))
    (h : distributeJob c X = some (c2, out)) :
    ∃ j, out = [(actorTopic X, j)] ∧ j.actor_id = X := by
  unfold distributeJob at h
  rcases hit : jobIterNext c.league c.jobIterCounter with _ | ⟨job, i⟩
  · rw [hit] at h
    exact absurd h (by simp)
  · rw [hit] at h
    simp only [Option.some.injEq, Prod.mk.injEq] at h
    exact ⟨{ job with actor_id := X }, h.2.symm, rfl⟩

/-- C6: a dispatch for actor `X` emits exactly one message, on the per-actor
topic named for `X`, with the job's `actor_id` bound to `X`; the topic of any
other actor id is a different topic. -/
theorem addressed_dispatch (c c2 : Coordinator) (X : String)
    (out : List (String × Job))
    (h : distributeJob c X = some (c2, out)) :
    (∃ j, out = [(actorTopic X, j)] ∧ j.actor_id = X)
    ∧ ∀ Y, Y ≠ X → actorTopic Y ≠ actorTopic X := by
  refine ⟨distributeJob_out c c2 X out h, ?_⟩
  intro Y hY hcontra
  apply hY
  have hdata : (actorTopic Y).data = (actorTopic X).data :=
    congrArg String.data hcontra
  simp only [actorTopic, String.data_append] at hdata
  exact String.ext (List.append_cancel_left hdata)

/-- Witness for C6: dispatching to actor `X` over the two-player league emits
one message on `league_job_actor_X`. -/
theorem addressed_dispatch_witness :
    (distributeJob (mkCoordinator lgAB) "X" = some (coordAB1, outAB))
    ∧ ((∃ j, outAB = [(actorTopic "X", j)] ∧ j.actor_id = "X")
       ∧ ∀ Y, Y ≠ "X" → actorTopic Y ≠ actorTopic "X") :=
  ⟨by decide, addressed_dispatch (mkCoordinator lgAB) coordAB1 "X" outAB (by decide)⟩

/-- Updating the checkpoint of an unknown active id leaves the league as is. -/
lemma updateActivePlayer_unknown (lg : League) (meta : PlayerMeta)
    (hm : meta.player_id ∉ activePlayerIds lg) :
    updateActivePlayer lg meta = lg := by
  unfold updateActivePlayer
  have hmap : lg.active_players.map (fun p =>
      if p.player_id = meta.player_id then { p with checkpoint := meta.checkpoint }
      else p) = lg.active_players.map id := by
    refine List.map_congr_left fun p hp => ?_
    rw [if_neg, id_eq]
    intro he
    exact hm (he ▸ List.mem_map_of_mem Player.player_id hp)
  rw [hmap, List.map_id]

/-- Promoting an unknown active id to historical leaves the league as is. -/
lemma createHistoricalPlayer_unknown (lg : League) (meta : PlayerMeta)
    (hm : meta.player_id ∉ activePlayerIds lg) :
    createHistoricalPlayer lg meta = lg := by
  unfold createHistoricalPlayer
  rw [if_neg]
  simpa using hm

/-- A job result whose participant pair has an unknown member leaves the
league as is. -/
lemma updatePayoff_unknown (lg : League) (job : Job) (a b : String)
    (hpair : pairKey job = some (a, b))
    (hunk : a ∉ allPlayerIds lg ∨ b ∉ allPlayerIds lg) :
    updatePayoff lg job = lg := by
  unfold updatePayoff
  rw [hpair]
  rcases hres : job.result with _ | o
  · rfl
  · show (if (allPlayerIds lg).contains a = true ∧ (allPlayerIds lg).contains b = true
        then { lg with payoff := recordOutcome lg.payoff (a, b) o } else lg) = lg
    rw [if_neg]
    rintro ⟨ha, hb⟩
    rcases hunk with h | h
    · exact h (by simpa using ha)
    · exact h (by simpa using hb)

/-- C4: a player snapshot or job result referencing an unknown player id is
dropped: the snapshot leaves the coordinator unchanged and emits nothing; the
job result leaves the league unchanged and the coordinator keeps running — its
re-dispatch for the reporting actor is exactly a fresh greeting on the
unchanged state, so other in-flight work is unaffected. -/
theorem unknown_player_dropped (c : Coordinator) (meta : PlayerMeta)
    (job : Job) (a b : String)
    (hm : meta.player_id ∉ activePlayerIds c.league)
    (hpair : pairKey job = some (a, b))
    (hunk : a ∉ allPlayerIds c.league ∨ b ∉ allPlayerIds c.league) :
    on_learner_player_meta c meta = (c, [])
    ∧ updatePayoff c.league job = c.league
    ∧ on_actor_job c job = on_actor_greeting c job.actor_id := by
  have hpay := updatePayoff_unknown c.league job a b hpair hunk
  refine ⟨?_, hpay, ?_⟩
  · unfold on_learner_player_meta
    rw [updateActivePlayer_unknown c.league meta hm,
      createHistoricalPlayer_unknown c.league meta hm]
  · unfold on_actor_job on_actor_greeting
    rw [hpay]

/-- Witness for C4: over `lgAB`, the snapshot `metaZ` and the result `jobZ`
both reference the unknown id `Z` and are dropped. -/
theorem unknown_player_dropped_witness :
    (metaZ.player_id ∉ activePlayerIds (mkCoordinator lgAB).league)
    ∧ (pairKey jobZ = some ("A", "Z"))
    ∧ ("Z" ∉ allPlayerIds (mkCoordinator lgAB).league)
    ∧ (on_learner_player_meta (mkCoordinator lgAB) metaZ = (mkCoordinator lgAB, [])
       ∧ updatePayoff (mkCoordinator lgAB).league jobZ = (mkCoordinator lgAB).league
       ∧ on_actor_job (mkCoordinator lgAB) jobZ =
           on_actor_greeting (mkCoordinator lgAB) jobZ.actor_id) :=
  ⟨by decide, by decide, by decide,
   unknown_player_dropped (mkCoordinator lgAB) metaZ jobZ "A" "Z"
     (by decide) (by decide) (Or.inr (by decide))⟩

/-- C5: processing a learner snapshot for a known active player updates that
player's checkpoint to the announced one, keeps all active identities
unchanged, appends exactly one new historical player whose checkpoint is the
announced one, and emits no outbound message. -/
theorem promotion_correctness (c : Coordinator) (meta : PlayerMeta)
    (hm : meta.player_id ∈ activePlayerIds c.league) :
    activePlayerIds (on_learner_player_meta c meta).1.league =
      activePlayerIds c.league
    ∧ (∀ p ∈ (on_learner_player_meta c meta).1.league.active_players,
        p.player_id = meta.player_id → p.checkpoint = meta.checkpoint)
    ∧ (∃ hp, (on_learner_player_meta c meta).1.league.historical_players =
        c.league.historical_players ++ [hp] ∧ hp.checkpoint = meta.checkpoint)
    ∧ (on_learner_player_meta c meta).2 = [] := by
  have hids : activePlayerIds (updateActivePlayer c.league meta) =
      activePlayerIds c.league := by
    unfold updateActivePlayer activePlayerIds
    simp only [List.map_map]
    refine List.map_congr_left fun p _ => ?_
    by_cases hpid : p.player_id = meta.player_id
    · simp [Function.comp, hpid]
    · simp [Function.comp, hpid]
  have hcontains : (activePlayerIds (updateActivePlayer c.league meta)).contains
      meta.player_id = true := by
    rw [hids]; simpa using hm
  refine ⟨?_, ?_, ?_, rfl⟩
  · show activePlayerIds
        (createHistoricalPlayer (updateActivePlayer c.league meta) meta) = _
    unfold createHistoricalPlayer
    rw [if_pos hcontains]
    exact hids
  · intro p hp hpid
    have hp2 : p ∈ (updateActivePlayer c.league meta).active_players := by
      revert hp
      show p ∈ (createHistoricalPlayer _ meta).active_players → _
      unfold createHistoricalPlayer
      rw [if_pos hcontains]
      exact id
    unfold updateActivePlayer at hp2
    simp only [List.mem_map] at hp2
    obtain ⟨q, _, hq⟩ := hp2
    by_cases hqid : q.player_id = meta.player_id
    · rw [if_pos hqid] at hq
      rw [← hq]
    · rw [if_neg hqid] at hq
      exact absurd (hq ▸ hpid) hqid
  · refine ⟨⟨meta.player_id ++ "_H" ++ toString meta.train_iter,
      meta.checkpoint⟩, ?_, rfl⟩
    show (createHistoricalPlayer (updateActivePlayer c.league meta) meta).historical_players = _
    unfold createHistoricalPlayer
    rw [if_pos hcontains]
    exact rfl

/-- Witness for C5: the snapshot `metaA` over `lgAB` updates `A`'s checkpoint
to `ckptA2`, freezes one historical player at `ckptA2`, and emits nothing. -/
theorem promotion_correctness_witness :
    (metaA.player_id ∈ activePlayerIds (mkCoordinator lgAB).league)
    ∧ (activePlayerIds (on_learner_player_meta (mkCoordinator lgAB) metaA).1.league =
        activePlayerIds (mkCoordinator lgAB).league
      ∧ (∀ p ∈ (on_learner_player_meta (mkCoordinator lgAB) metaA).1.league.active_players,
          p.player_id = metaA.player_id → p.checkpoint = metaA.checkpoint)
      ∧ (∃ hp, (on_learner_player_meta (mkCoordinator lgAB) metaA).1.league.historical_players =
          (mkCoordinator lgAB).league.historical_players ++ [hp]
          ∧ hp.checkpoint = metaA.checkpoint)
      ∧ (on_learner_player_meta (mkCoordinator lgAB) metaA).2 = []) :=
  ⟨by decide, promotion_correctness (mkCoordinator lgAB) metaA (by decide)⟩

/-- Recording an outcome updates the pair's current statistics by one bump. -/
lemma entryFor_recordOutcome (t : PayoffTable) (key : String × String)
    (o : Outcome) : entryFor (recordOutcome t key o) key = bump (entryFor t key) o := by
  simp [recordOutcome, entryFor]

/-- C8: result processing is not idempotent: applying the same completed job
result twice bumps the pair's statistics a second time, so the state after two
applications differs from the state after one — no deduplication happens. -/
theorem jobResult_not_idempotent (lg : League) (job : Job) (a b : String)
    (o : Outcome)
    (hpair : pairKey job = some (a, b)) (hres : job.result = some o)
    (ha : a ∈ allPlayerIds lg) (hb : b ∈ allPlayerIds lg) :
    entryFor (updatePayoff (updatePayoff lg job) job).payoff (a, b) =
      bump (entryFor (updatePayoff lg job).payoff (a, b)) o
    ∧ updatePayoff (updatePayoff lg job) job ≠ updatePayoff lg job := by
  have hall : allPlayerIds (updatePayoff lg job) = allPlayerIds lg := by
    unfold updatePayoff
    rw [hpair, hres]
    show allPlayerIds
        (if (allPlayerIds lg).contains a = true ∧ (allPlayerIds lg).contains b = true
          then { lg with payoff := recordOutcome lg.payoff (a, b) o } else lg) =
      allPlayerIds lg
    split <;> rfl
  have happly : ∀ lg2 : League, allPlayerIds lg2 = allPlayerIds lg →
      updatePayoff lg2 job = { lg2 with payoff := recordOutcome lg2.payoff (a, b) o } := by
    intro lg2 h2
    unfold updatePayoff
    rw [hpair, hres]
    show (if (allPlayerIds lg2).contains a = true ∧ (allPlayerIds lg2).contains b = true
        then { lg2 with payoff := recordOutcome lg2.payoff (a, b) o } else lg2) =
      { lg2 with payoff := recordOutcome lg2.payoff (a, b) o }
    rw [if_pos]
    rw [h2]
    exact ⟨by simpa using ha, by simpa using hb⟩
  rw [happly (updatePayoff lg job) hall, happly lg rfl]
  refine ⟨entryFor_recordOutcome _ _ _, ?_⟩
  intro hcontra
  have hlen := congrArg (fun l => l.payoff.length) hcontra
  simp [recordOutcome] at hlen

/-- Witness for C8: replaying `jobAB` over `lgAB` counts `A`'s win twice. -/
theorem jobResult_not_idempotent_witness :
    (pairKey jobAB = some ("A", "B")) ∧ (jobAB.result = some Outcome.win)
    ∧ ("A" ∈ allPlayerIds lgAB) ∧ ("B" ∈ allPlayerIds lgAB)
    ∧ (entryFor (updatePayoff (updatePayoff lgAB jobAB) jobAB).payoff ("A", "B") =
        bump (entryFor (updatePayoff lgAB jobAB).payoff ("A", "B")) Outcome.win
      ∧ updatePayoff (updatePayoff lgAB jobAB) jobAB ≠ updatePayoff lgAB jobAB) :=
  ⟨by decide, by decide, by decide, by decide,
   jobResult_not_idempotent lgAB jobAB "A" "B" Outcome.win
     (by decide) (by decide) (by decide) (by decide)⟩

/-- C9: a node whose configured slot carries a worker kind other than
`league_coordinator`, `league_actor` or `league_learner` fails startup with
the fatal `Undefined worker type` configuration error instead of running. -/
theorem unknown_worker_fatal (nActive : Nat) (workers : List (String × Nat))
    (node_id : Nat) (k : String)
    (hslot : (slotKinds workers)[node_id]? = some k)
    (h1 : k ≠ "league_coordinator") (h2 : k ≠ "league_actor")
    (h3 : k ≠ "league_learner") :
    assignWorker nActive workers node_id =
      Except.error ("Undefined worker type: " ++ k) := by
  simp [assignWorker, hslot, h1, h2, h3]

/-- Witness for C9: the slot of kind `spam` at node 1 of `cfgBad` errors. -/
theorem unknown_worker_fatal_witness :
    ((slotKinds cfgBad)[1]? = some "spam")
    ∧ ("spam" ≠ "league_coordinator") ∧ ("spam" ≠ "league_actor")
    ∧ ("spam" ≠ "league_learner")
    ∧ assignWorker 2 cfgBad 1 = Except.error ("Undefined worker type: " ++ "spam") :=
  ⟨by decide, by decide, by decide, by decide,
   unknown_worker_fatal 2 cfgBad 1 "spam" (by decide) (by decide) (by decide)
     (by decide)⟩

/-- C10: a node on a `league_learner` slot is assigned the active player at
index `node_id mod nActive`, a pure function of the node id and the
active-player count; consequently, when there are more learner nodes than
active players, two distinct learner nodes receive the same player index. -/
theorem learner_assignment_mod (nActive : Nat) (workers : List (String × Nat))
    (hA : 0 < nActive) :
    (∀ node_id, (slotKinds workers)[node_id]? = some "league_learner" →
      assignWorker nActive workers node_id =
        Except.ok (some (Assigned.learner (node_id % nActive))))
    ∧ (nActive < (learnerNodes workers).length →
      ∃ i ∈ learnerNodes workers, ∃ j ∈ learnerNodes workers, i ≠ j ∧
        assignWorker nActive workers i = assignWorker nActive workers j) := by
  have hAne : nActive ≠ 0 := Nat.pos_iff_ne_zero.mp hA
  have hmain : ∀ node_id, (slotKinds workers)[node_id]? = some "league_learner" →
      assignWorker nActive workers node_id =
        Except.ok (some (Assigned.learner (node_id % nActive))) := by
    intro node_id hslot
    simp [assignWorker, hslot, hAne]
  refine ⟨hmain, fun hcard => ?_⟩
  have hnd : (learnerNodes workers).Nodup :=
    (List.nodup_range _).filter _
  have hcards : (Finset.range nActive).card < (learnerNodes workers).toFinset.card := by
    rw [Finset.card_range, List.toFinset_card_of_nodup hnd]
    exact hcard
  have hmaps : ∀ i ∈ (learnerNodes workers).toFinset,
      i % nActive ∈ Finset.range nActive := by
    intro i _
    exact Finset.mem_range.mpr (Nat.mod_lt i hA)
  obtain ⟨i, hi, j, hj, hij, hmod⟩ :=
    Finset.exists_ne_map_eq_of_card_lt_of_maps_to hcards hmaps
  rw [List.mem_toFinset] at hi hj
  have hslot_i : (slotKinds workers)[i]? = some "league_learner" := by
    have := (List.mem_filter.mp hi).2
    simpa using this
  have hslot_j : (slotKinds workers)[j]? = some "league_learner" := by
    have := (List.mem_filter.mp hj).2
    simpa using this
  exact ⟨i, hi, j, hj, hij, by rw [hmain i hslot_i, hmain j hslot_j, hmod]⟩

/-- Witness for C10: with two active players, the three learner nodes of
`cfgLearners` include two assigned the same player index. -/
theorem learner_assignment_mod_witness :
    (0 < 2)
    ∧ ((∀ node_id, (slotKinds cfgLearners)[node_id]? = some "league_learner" →
        assignWorker 2 cfgLearners node_id =
          Except.ok (some (Assigned.learner (node_id % 2))))
      ∧ (2 < (learnerNodes cfgLearners).length →
        ∃ i ∈ learnerNodes cfgLearners, ∃ j ∈ learnerNodes cfgLearners, i ≠ j ∧
          assignWorker 2 cfgLearners i = assignWorker 2 cfgLearners j)) :=
  ⟨by decide, learner_assignment_mod 2 cfgLearners (by decide)⟩

/-- Counting over a cons splits into the head singleton and the tail. -/
lemma countP_cons_split {α : Type} (p : α → Bool) (e : α) (es : List α) :
    (e :: es).countP p = [e].countP p + es.countP p := by
  simp [List.countP_cons, Nat.add_comm]

/-- One successful handler step dispatches to actor `a` exactly one job per
greeting from `a` and one per job result reported by `a`. -/
lemma dispatchCount_stepEvent (c c2 : Coordinator) (e : Event)
    (out : List (String × Job)) (a : String)
    (h : stepEvent c e = some (c2, out)) :
    dispatchCount a out = greetCount a [e] + resultCount a [e] := by
  cases e with
  | greeting b =>
    have h2 : distributeJob c b = some (c2, out) := h
    obtain ⟨j, hout, hid⟩ := distributeJob_out _ _ _ _ h2
    rw [hout]
    simp [dispatchCount, greetCount, resultCount, List.countP_cons, hid]
  | jobResult j =>
    have h2 : distributeJob { c with league := updatePayoff c.league j }
        j.actor_id = some (c2, out) := h
    obtain ⟨jb, hout, hid⟩ := distributeJob_out _ _ _ _ h2
    rw [hout]
    simp [dispatchCount, greetCount, resultCount, List.countP_cons, hid]
  | playerMeta m =>
    have h2 : (on_learner_player_meta c m).2 = out :=
      congrArg Prod.snd (Option.some.inj h)
    rw [← h2]
    simp [dispatchCount, greetCount, resultCount, on_learner_player_meta]

/-- A successful run over `t₁ ++ t₂` restricts to a successful run over `t₁`,
with the emitted messages splitting accordingly. -/
lemma runTrace_append (t₁ : List Event) :
    ∀ (c : Coordinator) (t₂ : List Event) (c2 : Coordinator)
      (msgs : List (String × Job)),
      runTrace c (t₁ ++ t₂) = some (c2, msgs) →
      ∃ c₁ m₁ m₂, runTrace c t₁ = some (c₁, m₁)
        ∧ runTrace c₁ t₂ = some (c2, m₂) ∧ msgs = m₁ ++ m₂ := by
  induction t₁ with
  | nil => exact fun c t₂ c2 msgs h => ⟨c, [], msgs, rfl, h, rfl⟩
  | cons e es ih =>
    intro c t₂ c2 msgs h
    rw [List.cons_append, runTrace] at h
    rcases hstep : stepEvent c e with _ | ⟨c0, out⟩
    · rw [hstep, Option.none_bind] at h
      exact absurd h (by simp)
    rw [hstep, Option.some_bind] at h
    rcases hrest : runTrace c0 (es ++ t₂) with _ | ⟨cF, outs⟩
    · rw [hrest, Option.none_bind] at h
      exact absurd h (by simp)
    rw [hrest, Option.some_bind] at h
    simp only [Option.some.injEq, Prod.mk.injEq] at h
    obtain ⟨c₁, m₁, m₂, h1, h2, h3⟩ := ih c0 t₂ cF outs hrest
    refine ⟨c₁, out ++ m₁, m₂, ?_, h.1 ▸ h2, ?_⟩
    · rw [runTrace, hstep, Option.some_bind, h1, Option.some_bind]
    · rw [← h.2, h3, List.append_assoc]

/-- Accounting law of the event loop: over any successful run, the number of
jobs dispatched to an actor equals its greetings plus its reported results. -/
lemma dispatchCount_runTrace (a : String) :
    ∀ (t : List Event) (c c2 : Coordinator) (msgs : List (String × Job)),
      runTrace c t = some (c2, msgs) →
      dispatchCount a msgs = greetCount a t + resultCount a t
  | [], c, c2, msgs, h => by
    simp only [runTrace, Option.some.injEq, Prod.mk.injEq] at h
    rw [← h.2]
    rfl
  | e :: es, c, c2, msgs, h => by
    rw [runTrace] at h
    rcases hstep : stepEvent c e with _ | ⟨c0, out⟩
    · rw [hstep, Option.none_bind] at h
      exact absurd h (by simp)
    rw [hstep, Option.some_bind] at h
    rcases hrest : runTrace c0 es with _ | ⟨cF, outs⟩
    · rw [hrest, Option.none_bind] at h
      exact absurd h (by simp)
    rw [hrest, Option.some_bind] at h
    simp only [Option.some.injEq, Prod.mk.injEq] at h
    rw [← h.2]
    have h1 := dispatchCount_stepEvent c c0 e out a hstep
    have h2 := dispatchCount_runTrace a es c0 cF outs hrest
    have e1 : dispatchCount a (out ++ outs) =
        dispatchCount a out + dispatchCount a outs := List.countP_append _ _ _
    have e2 : greetCount a (e :: es) = greetCount a [e] + greetCount a es :=
      countP_cons_split _ e es
    have e3 : resultCount a (e :: es) = resultCount a [e] + resultCount a es :=
      countP_cons_split _ e es
    omega

/-- C7: per-actor alternation. Along any successful run in which each actor
greets at most once (the default protocol: one greeting, then one result per
received job), at every point of the run the jobs dispatched to an actor
exceed its reported results by exactly its greetings — hence by at most one:
the coordinator never holds two outstanding un-reported jobs for one actor,
and dispatch and result processing strictly alternate per actor. -/
theorem per_actor_alternation (c : Coordinator) (t₁ t₂ : List Event)
    (c2 : Coordinator) (msgs : List (String × Job))
    (hrun : runTrace c (t₁ ++ t₂) = some (c2, msgs))
    (hproto : ∀ a, greetCount a (t₁ ++ t₂) ≤ 1) :
    ∃ c₁ msgs₁, runTrace c t₁ = some (c₁, msgs₁) ∧
      ∀ a, dispatchCount a msgs₁ = greetCount a t₁ + resultCount a t₁
        ∧ dispatchCount a msgs₁ ≤ resultCount a t₁ + 1 := by
  obtain ⟨c₁, m₁, m₂, h1, _, _⟩ := runTrace_append t₁ c t₂ c2 msgs hrun
  refine ⟨c₁, m₁, h1, fun a => ?_⟩
  have hacc := dispatchCount_runTrace a t₁ c c₁ m₁ h1
  have hsplit : greetCount a (t₁ ++ t₂) = greetCount a t₁ + greetCount a t₂ :=
    List.countP_append _ _ _
  have hle := hproto a
  exact ⟨hacc, by omega⟩

/-- Witness for C7: actor `X` greets once and reports once over `lgAB`; at the
greeting-only prefix the invariant holds for every actor id. -/
theorem per_actor_alternation_witness :
    (runTrace (mkCoordinator lgAB)
        ([Event.greeting "X"] ++ [Event.jobResult jobAB]) ≠ none)
    ∧ (∀ a, greetCount a ([Event.greeting "X"] ++ [Event.jobResult jobAB]) ≤ 1)
    ∧ ∃ c₁ msgs₁,
        runTrace (mkCoordinator lgAB) [Event.greeting "X"] = some (c₁, msgs₁) ∧
        ∀ a, dispatchCount a msgs₁ =
            greetCount a [Event.greeting "X"] + resultCount a [Event.greeting "X"]
          ∧ dispatchCount a msgs₁ ≤ resultCount a [Event.greeting "X"] + 1 := by
  have hproto : ∀ a,
      greetCount a ([Event.greeting "X"] ++ [Event.jobResult jobAB]) ≤ 1 := by
    intro a
    rcases eq_or_ne "X" a with he | hne
    · subst he
      decide
    · simp [greetCount, List.countP_cons, List.countP_nil, hne]
  have hrun : runTrace (mkCoordinator lgAB)
      ([Event.greeting "X"] ++ [Event.jobResult jobAB]) =
      some ({ league := updatePayoff lgAB jobAB, jobIterCounter := 2 },
        [(actorTopic "X", { players := ["A", "H0"], actor_id := "X", result := none }),
         (actorTopic "X", { players := ["B", "H0"], actor_id := "X", result := none })]) := by
    decide
  exact ⟨by rw [hrun]; simp, hproto,
    per_actor_alternation (mkCoordinator lgAB)
      [Event.greeting "X"] [Event.jobResult jobAB] _ _ hrun hproto⟩

end League2
